import Mathlib

/-!
Verification development for the voice-dictation pipeline of the
AITravelPlanner repository.

The definitions below are shallow embeddings of the TypeScript sources:

* the XFYun speech bridge route (`parseResult`, `normalizeRange`,
  `normalizeWsSegments`, `extractTextFromWs`, `aggregateText`,
  `buildAuthorization` and the WebSocket session promise executor);
* the connectivity probe `testXfyunKey` in the budget route;
* the client audio helpers `resampleBuffer` and `floatTo16BitPCM` in
  `useSpeechRecognition.ts`.

JavaScript numbers are modelled as rationals (ℚ); JSON values as the
inductive `JsValue`; the mutable `Map<number, string>` transcript store as an
association list whose render step sorts by key, exactly as the source sorts
`store.entries()` on every render.  Fallible external primitives
(base64+JSON decoding, the `Number` coercion, HMAC-SHA256, base64) are
threaded as explicit function parameters, so every statement about them is
universally quantified over the primitive.
-/

/-! ## A model of JSON/JavaScript values -/

/-- A JSON-like JavaScript value.  `nul` stands for both `null` and the
result of a failed property lookup (`undefined` is modelled by `Option` at
the use sites). -/
inductive JsValue where
  | nul : JsValue
  | bool : Bool → JsValue
  | num : ℚ → JsValue
  | str : String → JsValue
  | arr : List JsValue → JsValue
  | obj : List (String × JsValue) → JsValue

/-- Lookup of a named field in an object's field list (first match wins). -/
def jsLookupField : List (String × JsValue) → String → Option JsValue
  | [], _ => none
  | (k, v) :: rest, name => if k = name then some v else jsLookupField rest name

/-- Property access `v[name]`; `none` models `undefined`.  Arrays and
primitives have no named properties in the fragments embedded here. -/
def jsGet : JsValue → String → Option JsValue
  | .obj fields, name => jsLookupField fields name
  | _, _ => none

/-- JavaScript falsiness of a value (`!v`): `null`, `false`, `0` and `""`
are falsy; arrays and objects are always truthy. -/
def jsFalsy : JsValue → Bool
  | .nul => true
  | .bool b => !b
  | .num q => q = 0
  | .str s => s = ""
  | .arr _ => false
  | .obj _ => false

/-- Whitespace test used by the model of `String.prototype.trim`. -/
def isWsChar (c : Char) : Bool :=
  c = ' ' || c = '\t' || c = '\n' || c = '\r'

/-- Model of JavaScript `trim()`: drop leading and trailing whitespace. -/
def jsTrim (s : String) : String :=
  String.mk (((s.data.dropWhile isWsChar).reverse.dropWhile isWsChar).reverse)

/-! ## The WPGS partial-result model (src/unnamed/part_010)

The TypeScript source declares

  type WpgsResult = { sn?: number; pgs?: "apd" | "rpl";
                      rg?: [number, number];
                      ws?: Array<{ cw?: Array<{ w?: string } | null> } | null> };

which is embedded verbatim below. -/

/-- The `pgs` tag of a partial result: `apd` (append) or `rpl` (replace). -/
inductive Pgs where
  | apd : Pgs
  | rpl : Pgs
deriving DecidableEq

/-- One word choice `{ w?: string }` inside a `cw` list. -/
structure WpgsWord where
  w : Option String
deriving DecidableEq

/-- One word-list segment `{ cw?: Array<{ w?: string } | null> }`. -/
structure WpgsSegmentCw where
  cw : Option (List (Option WpgsWord))
deriving DecidableEq

/-- A segment entry of `ws`, which may be `null`. -/
abbrev WpgsSegment := Option WpgsSegmentCw

/-- The normalized partial result produced by `parseResult`. -/
structure WpgsResult where
  sn : Option ℚ
  pgs : Option Pgs
  rg : Option (ℚ × ℚ)
  ws : Option (List WpgsSegment)
deriving DecidableEq

/-- Embedding of `extractTextFromWs`: flatten `ws`, read each choice's `w`
(defaulting `null` choices and missing `w` to `""`) and join. -/
def extractTextFromWs (result : Option WpgsResult) : String :=
  match result with
  | none => ""
  | some r =>
    match r.ws with
    | none => ""
    | some segs =>
      String.join ((segs.flatMap fun segment => (segment.bind fun s => s.cw).getD []).map
        fun choice => (choice.bind fun word => word.w).getD "")

/-! ## The transcript accumulator (`aggregateText`)

The source keeps fragments in a `Map<number, string>` and, on every render,
sorts `store.entries()` by key and joins the texts.  The map is embedded as
an association list (`TextStore`); in every state reachable from the source
the keys are pairwise distinct, and rendering sorts by key exactly as the
source does. -/

/-- The accumulator store: sequence number ↦ text fragment. -/
abbrev TextStore := List (ℚ × String)

/-- Key order used by the render step's `sort((a, b) => a[0] - b[0])`. -/
def keyLe (a b : ℚ × String) : Prop := a.1 ≤ b.1

instance : DecidableRel keyLe := fun a b => inferInstanceAs (Decidable (a.1 ≤ b.1))

/-- Entries of the store sorted by ascending sequence number. -/
def sortEntries (store : TextStore) : TextStore :=
  List.insertionSort keyLe store

/-- Render: concatenate the fragment texts in ascending key order. -/
def renderEntries (store : TextStore) : String :=
  String.join ((sortEntries store).map Prod.snd)

/-- Whether the store holds an entry for key `k` (`Map.prototype.has`). -/
def mapHasKey (store : TextStore) (k : ℚ) : Bool :=
  store.any fun e => e.1 = k

/-- Pointwise update applied by `Map.prototype.set` when the key is already
present. -/
def mapUpd (k : ℚ) (v : String) (e : ℚ × String) : ℚ × String :=
  if e.1 = k then (k, v) else e

/-- Embedding of `Map.prototype.set`: overwrite in place when the key is
present, otherwise append the new entry. -/
def mapSet (store : TextStore) (k : ℚ) (v : String) : TextStore :=
  if mapHasKey store k then store.map (mapUpd k v)
  else store ++ [(k, v)]

/-- Embedding of the deletion loop over `store.keys()`: drop every entry
whose key lies in the inclusive range `[a, b]`. -/
def mapDeleteRange (store : TextStore) (a b : ℚ) : TextStore :=
  store.filter fun e => !(a ≤ e.1 && e.1 ≤ b)

/-- Embedding of `aggregateText`.  The source mutates the store and returns
the rendered text; the embedding returns the pair (rendered text, new
store).  A `null` result renders the store unchanged; a result without a
numeric `sn` appends its text to the render without storing it; a `rpl`
result with a range first deletes every key in the inclusive range; a
non-empty text is then stored at `sn`. -/
def aggregateText (result : Option WpgsResult) (store : TextStore) :
    String × TextStore :=
  match result with
  | none => (renderEntries store, store)
  | some r =>
    let text := extractTextFromWs (some r)
    match r.sn with
    | none => (renderEntries store ++ text, store)
    | some sn =>
      let store1 :=
        if r.pgs = some Pgs.rpl then
          match r.rg with
          | some (start, stop) => mapDeleteRange store start stop
          | none => store
        else store
      let store2 := if text = "" then store1 else mapSet store1 sn text
      (renderEntries store2, store2)

/-- Convenience constructor for a partial result whose word list carries one
single-choice segment with the word `t`. -/
def mkResult (sn : Option ℚ) (pgs : Option Pgs) (rg : Option (ℚ × ℚ))
    (t : String) : WpgsResult :=
  ⟨sn, pgs, rg, some [some ⟨some [some ⟨some t⟩]⟩]⟩

/-! ## The inbound-result parser (`parseResult` and friends)

`parseResult` accepts the raw `data.result` field of an upstream message.
A string is base64-decoded and JSON-parsed (modelled by the explicit
decoder parameter `dec`; `dec s = none` models a decode/parse failure).
An object is probed for the fields `sn`, `pgs`, `rg`, `ws`, the historical
`cn.st.rt` word-list location and a nested `text` payload; if none of them
is present the function returns `null`.  The `Number` coercion used by
`normalizeRange` is the explicit parameter `jsNum` (with `none` modelling
`NaN`). -/

/-- Embedding of `normalizeRange`: `undefined` unless the value is an array
with at least two entries whose `Number` coercions are not `NaN`. -/
def normalizeRange (jsNum : JsValue → Option ℚ) (value : Option JsValue) :
    Option (ℚ × ℚ) :=
  match value with
  | some (.arr (v0 :: v1 :: _)) =>
    match jsNum v0, jsNum v1 with
    | some start, some stop => some (start, stop)
    | _, _ => none
  | _ => none

/-- Embedding of the word normalization inside `normalizeWsSegments`:
falsy or non-object items map to `null`, otherwise `w` is kept when it is a
string and replaced by `""` otherwise. -/
def normalizeChoice (item : JsValue) : Option WpgsWord :=
  match item with
  | .obj _ | .arr _ =>
    some ⟨some (match jsGet item "w" with | some (.str w) => w | _ => "")⟩
  | _ => none

/-- Embedding of `normalizeWsSegments`: a non-array input yields `[]`;
falsy or non-object segments become `null`; a segment whose `cw` is not an
array becomes `{ cw: undefined }`. -/
def normalizeWsSegments (segments : Option JsValue) : List WpgsSegment :=
  match segments with
  | some (.arr xs) =>
    xs.map fun segment =>
      match segment with
      | .obj _ | .arr _ =>
        match jsGet segment "cw" with
        | some (.arr cwRaw) => some ⟨some (cwRaw.map normalizeChoice)⟩
        | _ => some ⟨none⟩
      | _ => none
  | _ => []

/-- Reading of one raw (already JSON-parsed) segment along the dynamic
paths `segment?.cw ?? []` and `choice?.w ?? ""` later taken by
`extractTextFromWs`.  Primitive segments and non-string `w` values behave
as absent. -/
def castSegment (seg : JsValue) : WpgsSegment :=
  match seg with
  | .obj _ | .arr _ =>
    match jsGet seg "cw" with
    | some (.arr items) =>
      some ⟨some (items.map fun item =>
        match item with
        | .obj _ | .arr _ =>
          some ⟨match jsGet item "w" with | some (.str w) => some w | _ => none⟩
        | _ => none)⟩
    | _ => some ⟨none⟩
  | _ => none

/-- Reading of a base64-decoded JSON value under the declared `WpgsResult`
type (the source casts the parsed JSON with `as WpgsResult` and every later
access is guarded by a `typeof`/`Array.isArray` check, so a field of the
wrong shape behaves as absent). -/
def castWpgs (v : JsValue) : WpgsResult where
  sn := match jsGet v "sn" with | some (.num q) => some q | _ => none
  pgs :=
    match jsGet v "pgs" with
    | some (.str s) => if s = "apd" then some .apd else if s = "rpl" then some .rpl else none
    | _ => none
  rg :=
    match jsGet v "rg" with
    | some (.arr (.num a :: .num b :: _)) => some (a, b)
    | _ => none
  ws :=
    match jsGet v "ws" with
    | some (.arr xs) => some (xs.map castSegment)
    | _ => none

/-- Fuel-indexed body of `parseResult`.  The single recursive call descends
into the strictly smaller `raw.text` sub-value, so any fuel of at least the
size of the input computes the fixpoint; `parseResult` below supplies such
a fuel. -/
def parseResultGo (dec : String → Option JsValue) (jsNum : JsValue → Option ℚ) :
    Nat → Option JsValue → Option WpgsResult
  | _, none => none
  | 0, some _ => none
  | fuel + 1, some v =>
    if jsFalsy v then none
    else
      match v with
      | .str s => (dec s).map castWpgs
      | .obj _ | .arr _ =>
        let nested := parseResultGo dec jsNum fuel (jsGet v "text")
        let snCandidate : Option ℚ :=
          match jsGet v "sn" with
          | some (.num q) => some q
          | _ => nested.bind (·.sn)
        let pgsCandidate : Option Pgs :=
          match jsGet v "pgs" with
          | some (.str s) =>
            if s = "apd" then some .apd
            else if s = "rpl" then some .rpl
            else nested.bind (·.pgs)
          | _ => nested.bind (·.pgs)
        let rgCandidate : Option (ℚ × ℚ) :=
          match normalizeRange jsNum (jsGet v "rg") with
          | some rg => some rg
          | none => nested.bind (·.rg)
        let ws0 := normalizeWsSegments (jsGet v "ws")
        let ws1 :=
          if ws0.length = 0 then
            match ((jsGet v "cn").bind fun cn => jsGet cn "st").bind (fun st => jsGet st "rt") with
            | some (.arr rtList) =>
              rtList.flatMap fun entry => normalizeWsSegments (jsGet entry "ws")
            | _ => ws0
          else ws0
        let ws2 :=
          if ws1.length = 0 then
            match nested.bind (·.ws) with
            | some nws => if nws.length = 0 then ws1 else nws
            | none => ws1
          else ws1
        if snCandidate.isSome || ws2.length != 0 || pgsCandidate.isSome
            || rgCandidate.isSome then
          some ⟨snCandidate, pgsCandidate, rgCandidate, some ws2⟩
        else none
      | _ => none

/-- Structural size of a `JsValue`, bounding the `text`-nesting depth. -/
def jsSize : JsValue → Nat
  | .nul | .bool _ | .num _ | .str _ => 1
  | .arr xs => jsSizeList xs + 1
  | .obj fields => jsSizeFields fields + 1
where
  jsSizeList : List JsValue → Nat
    | [] => 0
    | x :: xs => jsSize x + jsSizeList xs
  jsSizeFields : List (String × JsValue) → Nat
    | [] => 0
    | (_, x) :: xs => jsSize x + jsSizeFields xs

/-- Embedding of `parseResult`: run the fuel-indexed body with enough fuel
to exhaust every `text`-nesting level of the input. -/
def parseResult (dec : String → Option JsValue) (jsNum : JsValue → Option ℚ)
    (input : Option JsValue) : Option WpgsResult :=
  parseResultGo dec jsNum (match input with | some v => jsSize v | none => 0) input

/-! ## Client audio helpers (`useSpeechRecognition.ts`)

Samples and sample rates are modelled as rationals. -/

/-- JavaScript `Math.round`: round half towards positive infinity. -/
def jsRound (q : ℚ) : ℤ := ⌊q + 1 / 2⌋

/-- Embedding of `resampleBuffer`: identity when the rates agree, otherwise
linear interpolation at source position `i * ratio` with the upper
neighbour clamped to the last index.  An out-of-range read would be
`undefined` in the source; for positive rates every generated index is in
range, so the `getD` default is never consulted. -/
def resampleBuffer (data : List ℚ) (inputSampleRate targetSampleRate : ℚ) :
    List ℚ :=
  if inputSampleRate = targetSampleRate then data
  else
    let ratio := inputSampleRate / targetSampleRate
    let newLength := (jsRound ((data.length : ℚ) / ratio)).toNat
    (List.range newLength).map fun (i : ℕ) =>
      let origin : ℚ := (i : ℚ) * ratio
      let lowerIndex : ℤ := ⌊origin⌋
      let upperIndex : ℤ := min (lowerIndex + 1) ((data.length : ℤ) - 1)
      let weight : ℚ := origin - (lowerIndex : ℚ)
      let lowerValue := data.getD lowerIndex.toNat 0
      let upperValue := data.getD upperIndex.toNat 0
      lowerValue + (upperValue - lowerValue) * weight

/-- Truncation towards zero, as applied by `DataView.setInt16` to a
non-integral number. -/
def ratTrunc (q : ℚ) : ℤ := if q < 0 then ⌈q⌉ else ⌊q⌋

/-- Conversion to a signed 16-bit integer (`ToInt16`): truncate, reduce
modulo 2^16 and reinterpret the upper half as negative. -/
def toInt16 (q : ℚ) : ℤ :=
  let m := ratTrunc q % 65536
  if m < 32768 then m else m - 65536

/-- Clamp of one sample to `[-1, 1]` (`Math.max(-1, Math.min(1, x))`). -/
def pcmClamp (s : ℚ) : ℚ := max (-1) (min 1 s)

/-- Scale of one clamped sample: `* 0x8000` when negative, `* 0x7fff`
otherwise. -/
def pcmScale (c : ℚ) : ℚ := if c < 0 then c * 32768 else c * 32767

/-- The signed 16-bit value stored for one float sample. -/
def encodeSample (s : ℚ) : ℤ := toInt16 (pcmScale (pcmClamp s))

/-- Little-endian byte pair of a signed 16-bit value. -/
def int16LeBytes (v : ℤ) : List ℕ :=
  [(v % 65536).toNat % 256, (v % 65536).toNat / 256]

/-- Embedding of `floatTo16BitPCM`: two little-endian bytes per sample. -/
def floatTo16BitPCM (data : List ℚ) : List ℕ :=
  data.flatMap fun s => int16LeBytes (encodeSample s)

/-- Decoding of a stored 16-bit value back to a float, dividing by the same
scale the encoder used for the value's sign. -/
def decodeSample (v : ℤ) : ℚ :=
  if v < 0 then (v : ℚ) / 32768 else (v : ℚ) / 32767

/-! ## The signed handshake (`buildAuthorization` and the probe's inline copy)

HMAC-SHA256 (base64-encoded) and plain base64 are external primitives,
threaded as explicit function parameters; both source sites call the same
two Node primitives. -/

/-- ASCII upper-casing of one character (`String.prototype.toUpperCase`,
restricted to the ASCII range exercised by the source). -/
def jsUpperChar (c : Char) : Char :=
  if 'a' ≤ c && c ≤ 'z' then Char.ofNat (c.toNat - 32) else c

/-- ASCII model of `toUpperCase`. -/
def jsToUpperCase (s : String) : String := String.mk (s.data.map jsUpperChar)

/-- Canonical string signed by the recognition bridge
(`buildAuthorization` in the speech route). -/
def bridgeSignatureOrigin (method path date host : String) : String :=
  "host: " ++ host ++ "\n" ++ "date: " ++ date ++ "\n"
    ++ jsToUpperCase method ++ " " ++ path ++ " HTTP/1.1"

/-- Embedding of `buildAuthorization`: sign the canonical string, wrap the
signature in the authorization clause and base64-encode it. -/
def buildAuthorization (hmacSha256Base64 : String → String → String)
    (base64Encode : String → String)
    (apiKey apiSecret method path date host : String) : String :=
  let signatureSha :=
    hmacSha256Base64 apiSecret (bridgeSignatureOrigin method path date host)
  let authorizationOrigin :=
    "api_key=\"" ++ apiKey ++ "\", algorithm=\"hmac-sha256\","
      ++ " headers=\"host date request-line\", signature=\"" ++ signatureSha ++ "\""
  base64Encode authorizationOrigin

/-- Canonical string signed by the connectivity probe (inline in
`testXfyunKey`, with a literal `GET`). -/
def probeSignatureOrigin (path date host : String) : String :=
  "host: " ++ host ++ "\n" ++ "date: " ++ date ++ "\n"
    ++ "GET" ++ " " ++ path ++ " HTTP/1.1"

/-- Embedding of the probe's inline authorization computation. -/
def testXfyunAuthorization (hmacSha256Base64 : String → String → String)
    (base64Encode : String → String)
    (apiKey apiSecret path date host : String) : String :=
  let signatureSha := hmacSha256Base64 apiSecret (probeSignatureOrigin path date host)
  let authorizationOrigin :=
    "api_key=\"" ++ apiKey ++ "\", algorithm=\"hmac-sha256\","
      ++ " headers=\"host date request-line\", signature=\"" ++ signatureSha ++ "\""
  base64Encode authorizationOrigin

/-! ## The session state machines

Each WebSocket session is a promise executor with handlers for the timer,
`error`, `open`, `message` and `close` events, guarded by a `settled` flag.
The embedding is an explicit step function per session kind; a step yields
the next state, at most one settlement (resolve or reject) and the close
commands issued on the transport. -/

/-- Structured reject reasons of the two sessions. -/
inductive RejectKind where
  | timeout : RejectKind
  | connError : RejectKind
  | sendFailure : RejectKind
  | messageFailure : RejectKind
  | upstream : RejectKind
  | closed : Int → RejectKind
deriving DecidableEq

/-- A settlement of the session promise. -/
inductive Settlement where
  | resolve : String → Settlement
  | reject : RejectKind → Settlement
deriving DecidableEq

/-- Result of one handler invocation: next state, optional settlement, and
the close codes sent to the transport (`none` = close without a code). -/
structure StepOut (σ : Type) where
  state : σ
  settlement : Option Settlement
  closes : List (Option Int)
deriving DecidableEq

/-- Timeout constants of the recognition bridge: `setTimeout(..., 25000)`
and `handshakeTimeout: 10000`. -/
def bridgeSessionTimeoutMs : ℕ := 25000

/-- Handshake-only timeout passed to the bridge's WebSocket constructor. -/
def bridgeHandshakeTimeoutMs : ℕ := 10000

/-- Timeout constants of the connectivity probe: `setTimeout(..., 12000)`
and `handshakeTimeout: 8000`. -/
def probeSessionTimeoutMs : ℕ := 12000

/-- Handshake-only timeout passed to the probe's WebSocket constructor. -/
def probeHandshakeTimeoutMs : ℕ := 8000

/-- Mutable state of one recognition-bridge session: the settled flag, the
pending timer, the accumulator store and the running `finalText`. -/
structure BridgeState where
  settled : Bool
  timerArmed : Bool
  store : TextStore
  finalText : String
deriving DecidableEq

/-- State at session creation. -/
def bridgeInit : BridgeState := ⟨false, true, [], ""⟩

/-- Events delivered to a bridge session.  `wsMessage none` models an
inbound frame whose outer JSON fails to parse; `wsOpen false` models a
send failure inside the `open` handler. -/
inductive BridgeEvent where
  | timerFire : BridgeEvent
  | wsError : BridgeEvent
  | wsOpen : Bool → BridgeEvent
  | wsMessage : Option JsValue → BridgeEvent
  | wsClose : Int → BridgeEvent

/-- Truthiness of `payload.code ?? 0` being `=== 0`. -/
def jsCodeIsZero (codeField : Option JsValue) : Bool :=
  match codeField with
  | none => true
  | some .nul => true
  | some (.num q) => q = 0
  | _ => false

/-- The check `payload.data?.status === 2`. -/
def jsStatusIsTwo (payload : JsValue) : Bool :=
  match (jsGet payload "data").bind fun d => jsGet d "status" with
  | some (.num q) => q = 2
  | _ => false

/-- The extraction `payload.data?.result ?? null`. -/
def jsDataResult (payload : JsValue) : Option JsValue :=
  (jsGet payload "data").bind fun d => jsGet d "result"

/-- The bridge's `abort` helper: settle once with a rejection, clearing the
timer and closing the socket without a code. -/
def bridgeAbort (s : BridgeState) (kind : RejectKind) : StepOut BridgeState :=
  if s.settled then ⟨s, none, []⟩
  else ⟨{ s with settled := true, timerArmed := false }, some (.reject kind), [none]⟩

/-- One handler invocation of the recognition-bridge session. -/
def bridgeStep (dec : String → Option JsValue) (jsNum : JsValue → Option ℚ)
    (s : BridgeState) (e : BridgeEvent) : StepOut BridgeState :=
  match e with
  | .timerFire =>
    if s.settled then ⟨{ s with timerArmed := false }, none, []⟩
    else ⟨{ s with settled := true, timerArmed := false },
      some (.reject .timeout), [some 4000]⟩
  | .wsError => bridgeAbort s .connError
  | .wsOpen sendOk => if sendOk then ⟨s, none, []⟩ else bridgeAbort s .sendFailure
  | .wsMessage none => bridgeAbort s .messageFailure
  | .wsMessage (some payload) =>
    if jsCodeIsZero (jsGet payload "code") then
      let s1 :=
        match parseResult dec jsNum (jsDataResult payload) with
        | some r =>
          let out := aggregateText (some r) s.store
          { s with finalText := out.1, store := out.2 }
        | none => s
      if jsStatusIsTwo payload && !s1.settled then
        ⟨{ s1 with settled := true, timerArmed := false },
          some (.resolve (jsTrim s1.finalText)), [some 1000]⟩
      else ⟨s1, none, []⟩
    else bridgeAbort s .upstream
  | .wsClose code =>
    if s.settled then ⟨s, none, []⟩
    else
      let s1 := { s with settled := true, timerArmed := false }
      if code = 1000 then ⟨s1, some (.resolve (jsTrim s.finalText)), []⟩
      else ⟨s1, some (.reject (.closed code)), []⟩

/-- Mutable state of one connectivity-probe session. -/
structure ProbeState where
  settled : Bool
  timerArmed : Bool
deriving DecidableEq

/-- Probe state at session creation. -/
def probeInit : ProbeState := ⟨false, true⟩

/-- Events delivered to a probe session (same shapes as the bridge). -/
inductive ProbeEvent where
  | timerFire : ProbeEvent
  | wsError : ProbeEvent
  | wsOpen : Bool → ProbeEvent
  | wsMessage : Option JsValue → ProbeEvent
  | wsClose : Int → ProbeEvent

/-- One handler invocation of the connectivity-probe session
(`testXfyunKey`).  The probe resolves with no value; the resolution carries
the empty string.  A message whose JSON fails to parse is ignored. -/
def probeStep (s : ProbeState) (e : ProbeEvent) : StepOut ProbeState :=
  match e with
  | .timerFire =>
    if s.settled then ⟨{ s with timerArmed := false }, none, []⟩
    else ⟨⟨true, false⟩, some (.reject .timeout), [some 4000]⟩
  | .wsError =>
    if s.settled then ⟨s, none, []⟩
    else ⟨⟨true, false⟩, some (.reject .connError), []⟩
  | .wsOpen sendOk =>
    if sendOk then ⟨s, none, []⟩
    else if s.settled then ⟨s, none, []⟩
    else ⟨⟨true, false⟩, some (.reject .sendFailure), []⟩
  | .wsMessage none => ⟨s, none, []⟩
  | .wsMessage (some payload) =>
    match jsGet payload "code" with
    | some (.num q) =>
      if q ≠ 0 then
        if s.settled then ⟨s, none, []⟩
        else ⟨⟨true, false⟩, some (.reject .upstream), []⟩
      else if !s.settled then ⟨⟨true, false⟩, some (.resolve ""), [some 1000]⟩
      else ⟨s, none, []⟩
    | _ => ⟨s, none, []⟩
  | .wsClose code =>
    if s.settled then ⟨s, none, []⟩
    else if code = 1000 || code = 0 then ⟨⟨true, false⟩, some (.resolve ""), []⟩
    else ⟨⟨true, false⟩, some (.reject (.closed code)), []⟩

/-- Number of settlements emitted along a bridge event trace. -/
def bridgeRun (dec : String → Option JsValue) (jsNum : JsValue → Option ℚ)
    (s : BridgeState) : List BridgeEvent → ℕ
  | [] => 0
  | e :: rest =>
    let out := bridgeStep dec jsNum s e
    (if out.settlement.isSome then 1 else 0) + bridgeRun dec jsNum out.state rest

/-- Number of settlements emitted along a probe event trace. -/
def probeRun (s : ProbeState) : List ProbeEvent → ℕ
  | [] => 0
  | e :: rest =>
    let out := probeStep s e
    (if out.settlement.isSome then 1 else 0) + probeRun out.state rest

/-! ## Auxiliary definitions used by the statements -/

/-- Strict key order on store entries. -/
def keyLt (a b : ℚ × String) : Prop := a.1 < b.1

instance : IsTotal (ℚ × String) keyLe := ⟨fun a b => le_total a.1 b.1⟩

instance : IsTrans (ℚ × String) keyLe := ⟨fun _ _ _ => le_trans⟩

instance : IsAntisymm (ℚ × String) keyLt :=
  ⟨fun _ _ h h' => absurd (lt_trans h h') (lt_irrefl _)⟩

/-- Pairwise distinctness of the store keys; it holds in every state the
source can reach, since the store is a `Map`. -/
def NodupKeys (s : TextStore) : Prop :=
  List.Pairwise (fun a b => a.1 ≠ b.1) s

/-- A decoder that fails on every input, used to instantiate the external
base64+JSON primitive in concrete statements. -/
def decNone : String → Option JsValue := fun _ => none

/-- A `Number` coercion that is `NaN` everywhere, used to instantiate the
external coercion in concrete statements. -/
def jsNumNone : JsValue → Option ℚ := fun _ => none

/-! # Theorems

Helper lemmas about the accumulator store come first, followed by one
theorem per specification claim (with witnesses and counterexamples where
applicable). -/

lemma sortEntries_sorted (s : TextStore) : List.Sorted keyLe (sortEntries s) :=
  List.sorted_insertionSort keyLe s

lemma sortEntries_perm (s : TextStore) : (sortEntries s).Perm s :=
  List.perm_insertionSort keyLe s

lemma keyNe_symm : ∀ {a b : ℚ × String}, a.1 ≠ b.1 → b.1 ≠ a.1 :=
  fun h => h.symm

lemma sorted_keyLt_of_sorted_nodup {l : TextStore}
    (hs : List.Sorted keyLe l) (hn : NodupKeys l) : List.Sorted keyLt l :=
  (hs.and hn).imp fun h => lt_of_le_of_ne h.1 h.2

lemma sortEntries_eq_of_perm {l₁ l₂ : TextStore} (h : l₁.Perm l₂)
    (hn : NodupKeys l₁) : sortEntries l₁ = sortEntries l₂ := by
  have hp : (sortEntries l₁).Perm (sortEntries l₂) :=
    ((sortEntries_perm l₁).trans h).trans (sortEntries_perm l₂).symm
  have hn₁ : NodupKeys (sortEntries l₁) :=
    (List.Perm.pairwise_iff keyNe_symm (sortEntries_perm l₁)).mpr hn
  have hn₂ : NodupKeys (sortEntries l₂) :=
    (List.Perm.pairwise_iff keyNe_symm hp).mp hn₁
  exact List.eq_of_perm_of_sorted hp
    (sorted_keyLt_of_sorted_nodup (sortEntries_sorted l₁) hn₁)
    (sorted_keyLt_of_sorted_nodup (sortEntries_sorted l₂) hn₂)

lemma renderEntries_eq_of_perm {l₁ l₂ : TextStore} (h : l₁.Perm l₂)
    (hn : NodupKeys l₁) : renderEntries l₁ = renderEntries l₂ := by
  unfold renderEntries
  rw [sortEntries_eq_of_perm h hn]

lemma mapUpd_fst (k : ℚ) (v : String) (e : ℚ × String) :
    (mapUpd k v e).1 = e.1 := by
  unfold mapUpd
  split <;> simp_all

lemma mapUpd_of_ne {k : ℚ} {e : ℚ × String} (v : String) (h : e.1 ≠ k) :
    mapUpd k v e = e := by
  unfold mapUpd
  exact if_neg h

lemma mapUpd_comm {k₁ k₂ : ℚ} (v₁ v₂ : String) (hk : k₁ ≠ k₂)
    (e : ℚ × String) :
    mapUpd k₂ v₂ (mapUpd k₁ v₁ e) = mapUpd k₁ v₁ (mapUpd k₂ v₂ e) := by
  unfold mapUpd
  split_ifs <;> simp_all

lemma mapHasKey_map_upd (s : TextStore) (k k' : ℚ) (v : String) :
    mapHasKey (s.map (mapUpd k v)) k' = mapHasKey s k' := by
  unfold mapHasKey
  rw [List.any_map]
  congr 1
  funext e
  simp [Function.comp, mapUpd_fst]

lemma mapHasKey_append_single (s : TextStore) (k k' : ℚ) (v : String)
    (hk : k ≠ k') :
    mapHasKey (s ++ [(k, v)]) k' = mapHasKey s k' := by
  simp [mapHasKey, List.any_append, hk]

lemma not_hasKey_forall {s : TextStore} {k : ℚ}
    (h : mapHasKey s k = false) : ∀ e ∈ s, e.1 ≠ k := by
  intro e he hk
  have : mapHasKey s k = true := List.any_eq_true.mpr ⟨e, he, by simp [hk]⟩
  simp [this] at h

lemma nodupKeys_map_upd {s : TextStore} (k : ℚ) (v : String)
    (hn : NodupKeys s) : NodupKeys (s.map (mapUpd k v)) := by
  unfold NodupKeys
  rw [List.pairwise_map]
  exact hn.imp fun h => by simpa [mapUpd_fst] using h

lemma nodupKeys_append_single {s : TextStore} {k : ℚ} (v : String)
    (hn : NodupKeys s) (hk : mapHasKey s k = false) :
    NodupKeys (s ++ [(k, v)]) := by
  unfold NodupKeys
  rw [List.pairwise_append]
  refine ⟨hn, List.pairwise_singleton _ _, ?_⟩
  intro a ha b hb
  rcases List.mem_singleton.mp hb with rfl
  exact not_hasKey_forall hk a ha

lemma nodupKeys_mapSet {s : TextStore} (k : ℚ) (v : String)
    (hn : NodupKeys s) : NodupKeys (mapSet s k v) := by
  unfold mapSet
  split
  · exact nodupKeys_map_upd k v hn
  · exact nodupKeys_append_single v hn (by simp_all)

lemma nodupKeys_mapDeleteRange {s : TextStore} (a b : ℚ)
    (hn : NodupKeys s) : NodupKeys (mapDeleteRange s a b) :=
  List.Pairwise.sublist (List.filter_sublist s) hn

lemma render_mapSet_comm {s : TextStore} {k₁ k₂ : ℚ} (v₁ v₂ : String)
    (hk : k₁ ≠ k₂) (hn : NodupKeys s) :
    renderEntries (mapSet (mapSet s k₁ v₁) k₂ v₂)
      = renderEntries (mapSet (mapSet s k₂ v₂) k₁ v₁) := by
  by_cases h₁ : mapHasKey s k₁ <;> by_cases h₂ : mapHasKey s k₂
  · -- both keys present: the two sides are the same list
    unfold mapSet
    rw [if_pos h₁, if_pos h₂, if_pos (by rw [mapHasKey_map_upd]; exact h₂),
      if_pos (by rw [mapHasKey_map_upd]; exact h₁), List.map_map, List.map_map]
    congr 1
    refine List.map_congr_left ?_
    intro e _
    simp only [Function.comp_apply]
    exact mapUpd_comm v₁ v₂ hk e
  · -- k₁ present, k₂ absent
    unfold mapSet
    rw [if_pos h₁, if_neg (by rw [mapHasKey_map_upd]; exact h₂),
      if_neg h₂,
      if_pos (by rw [mapHasKey_append_single s k₂ k₁ v₂ (Ne.symm hk)]; exact h₁),
      List.map_append]
    have h3 : mapUpd k₁ v₁ (k₂, v₂) = (k₂, v₂) := mapUpd_of_ne v₁ (Ne.symm hk)
    simp [h3]
  · -- k₁ absent, k₂ present
    unfold mapSet
    rw [if_neg h₁, if_pos h₂,
      if_pos (by rw [mapHasKey_append_single s k₁ k₂ v₁ hk]; exact h₂),
      if_neg (by rw [mapHasKey_map_upd]; exact h₁),
      List.map_append]
    have h3 : mapUpd k₂ v₂ (k₁, v₁) = (k₁, v₁) := mapUpd_of_ne v₂ hk
    simp [h3]
  · -- both keys absent: the appends commute up to permutation
    unfold mapSet
    rw [if_neg h₁, if_neg h₂,
      if_neg (by rw [mapHasKey_append_single s k₁ k₂ v₁ hk]; exact h₂),
      if_neg (by rw [mapHasKey_append_single s k₂ k₁ v₂ (Ne.symm hk)]; exact h₁),
      List.append_assoc, List.append_assoc]
    simp only [List.singleton_append]
    refine renderEntries_eq_of_perm
      (List.Perm.append_left s (List.Perm.swap (k₂, v₂) (k₁, v₁) [])) ?_
    unfold NodupKeys
    rw [List.pairwise_append]
    refine ⟨hn, ?_, ?_⟩
    · refine List.pairwise_cons.mpr ⟨?_, List.pairwise_singleton _ _⟩
      intro b hb
      rcases List.mem_singleton.mp hb with rfl
      exact hk
    · intro a ha b hb
      rcases List.mem_cons.mp hb with rfl | hb
      · exact not_hasKey_forall (by simp_all) a ha
      · rcases List.mem_singleton.mp hb with rfl
        exact not_hasKey_forall (by simp_all) a ha

/-- C1: starting from the empty accumulator, applying `{sn:1, text:"a"}`
then `{sn:2, text:"b"}` renders `"ab"`; the replaceRange result
`{sn:2, pgs:rpl, rg:[2,2], text:"c"}` deletes every stored fragment whose
key lies in `[2,2]` inclusive before inserting `"c"` at key `2`, rendering
`"ac"`; and in general the rendered text is the concatenation of the
stored fragments in ascending sequence-number order (the sorted entry
list is an ascending permutation of the store), and a replaceRange result
first removes exactly the entries with keys in the inclusive range. -/
theorem accumulator_render_spec :
    (aggregateText (some (mkResult (some 1) none none "a")) [] = ("a", [(1, "a")]) ∧
      aggregateText (some (mkResult (some 2) none none "b")) [(1, "a")]
        = ("ab", [(1, "a"), (2, "b")]) ∧
      aggregateText (some (mkResult (some 2) (some .rpl) (some (2, 2)) "c"))
        [(1, "a"), (2, "b")] = ("ac", [(1, "a"), (2, "c")])) ∧
    (∀ r store n, r.sn = some n →
      (aggregateText (some r) store).1
        = renderEntries (aggregateText (some r) store).2) ∧
    (∀ store : TextStore, List.Sorted keyLe (sortEntries store) ∧
      (sortEntries store).Perm store ∧
      renderEntries store = String.join ((sortEntries store).map Prod.snd)) ∧
    (∀ r store n a b, r.sn = some n → r.pgs = some Pgs.rpl → r.rg = some (a, b) →
      extractTextFromWs (some r) ≠ "" →
      (aggregateText (some r) store).2
        = mapSet (mapDeleteRange store a b) n (extractTextFromWs (some r)) ∧
      ∀ e, e ∈ mapDeleteRange store a b ↔ e ∈ store ∧ ¬(a ≤ e.1 ∧ e.1 ≤ b)) := by
  refine ⟨⟨by decide, by decide, by decide⟩, ?_, ?_, ?_⟩
  · rintro ⟨sn, pgs, rg, ws⟩ store n hsn
    cases hsn
    rfl
  · intro store
    exact ⟨sortEntries_sorted store, sortEntries_perm store, rfl⟩
  · rintro ⟨sn, pgs, rg, ws⟩ store n a b hsn hpgs hrg htext
    cases hsn
    cases hpgs
    cases hrg
    constructor
    · simp only [aggregateText, eq_self_iff_true, ite_true]
      rw [if_neg htext]
    · intro e
      constructor
      · intro he
        have h1 := List.mem_filter.mp he
        refine ⟨h1.1, ?_⟩
        intro hab
        have h2 := h1.2
        simp [hab.1, hab.2] at h2
      · rintro ⟨he, hab⟩
        refine List.mem_filter.mpr ⟨he, ?_⟩
        by_cases ha : a ≤ e.1
        · by_cases hb : e.1 ≤ b
          · exact absurd ⟨ha, hb⟩ hab
          · simp [ha, hb]
        · simp [ha]

/-- Witness for C1: the general clauses instantiated at the claim's own
example inputs. -/
theorem accumulator_render_spec_witness :
    (aggregateText (some (mkResult (some 1) none none "a")) []).1
      = renderEntries (aggregateText (some (mkResult (some 1) none none "a")) []).2 ∧
    (aggregateText (some (mkResult (some 2) (some .rpl) (some (2, 2)) "c"))
        [(1, "a"), (2, "b")]).2
      = mapSet (mapDeleteRange [(1, "a"), (2, "b")] 2 2) 2
          (extractTextFromWs (some (mkResult (some 2) (some .rpl) (some (2, 2)) "c"))) :=
  ⟨accumulator_render_spec.2.1 _ [] 1 rfl,
    (accumulator_render_spec.2.2.2 _ [(1, "a"), (2, "b")] 2 2 2 rfl rfl rfl
      (by decide)).1⟩

/-- C7: two partial results with distinct sequence numbers and no
replaceRange operation can be applied to the accumulator in either order;
the rendered transcript is the same. -/
theorem aggregateText_order_independent :
    ∀ (r₁ r₂ : WpgsResult) (store : TextStore) (n₁ n₂ : ℚ),
      r₁.sn = some n₁ → r₂.sn = some n₂ → n₁ ≠ n₂ →
      r₁.pgs ≠ some Pgs.rpl → r₂.pgs ≠ some Pgs.rpl →
      NodupKeys store →
      (aggregateText (some r₂) (aggregateText (some r₁) store).2).1
        = (aggregateText (some r₁) (aggregateText (some r₂) store).2).1 := by
  rintro ⟨sn₁, pgs₁, rg₁, ws₁⟩ ⟨sn₂, pgs₂, rg₂, ws₂⟩ store n₁ n₂ hsn₁ hsn₂ hk hp₁ hp₂ hn
  cases hsn₁
  cases hsn₂
  simp only [aggregateText, if_neg hp₁, if_neg hp₂]
  by_cases h₁ : extractTextFromWs (some ⟨some n₁, pgs₁, rg₁, ws₁⟩) = "" <;>
    by_cases h₂ : extractTextFromWs (some ⟨some n₂, pgs₂, rg₂, ws₂⟩) = "" <;>
      simp only [h₁, h₂, eq_self_iff_true, ite_true, ite_false, not_true,
        not_false_iff]
  exact render_mapSet_comm _ _ hk hn

/-- Witness for C7: applying `sn=2` before `sn=1` renders the same text as
`sn=1` before `sn=2` on the empty store. -/
theorem aggregateText_order_independent_witness :
    (aggregateText (some (mkResult (some 1) none none "a"))
        (aggregateText (some (mkResult (some 2) none none "b")) []).2).1
      = (aggregateText (some (mkResult (some 2) none none "b"))
          (aggregateText (some (mkResult (some 1) none none "a")) []).2).1 :=
  aggregateText_order_independent (mkResult (some 2) none none "b")
    (mkResult (some 1) none none "a") [] 2 1 rfl rfl (by decide) (by decide)
    (by decide) List.Pairwise.nil

/-- Counterexample to C8 as stated: applying two sequence-number-free
messages with texts `"x"` then `"y"` does not yield a render containing
`"x"` followed by `"y"`; the second application renders just `"y"`,
because the first text was never stored. -/
theorem aggregateText_noSn_not_retained :
    (aggregateText (some (mkResult none none none "y"))
        (aggregateText (some (mkResult none none none "x")) []).2).1 = "y" ∧
    ¬∃ l₁ l₂ l₃ : List Char,
      ((aggregateText (some (mkResult none none none "y"))
          (aggregateText (some (mkResult none none none "x")) []).2).1).data
        = l₁ ++ "x".data ++ l₂ ++ "y".data ++ l₃ := by
  refine ⟨by decide, ?_⟩
  rintro ⟨l₁, l₂, l₃, h⟩
  have hlen := congrArg List.length h
  have hy : ((aggregateText (some (mkResult none none none "y"))
      (aggregateText (some (mkResult none none none "x")) []).2).1).data
        = ['y'] := by decide
  rw [hy] at hlen
  simp [List.length_append] at hlen
  omega

/-- C8 (amended): a partial result without a sequence number appends its
text to the render of the currently stored fragments for that application
only; the store is left unchanged, so the appended text is not retained
by later applications. -/
theorem aggregateText_noSn_appends_once :
    ∀ (r : WpgsResult) (store : TextStore), r.sn = none →
      aggregateText (some r) store
        = (renderEntries store ++ extractTextFromWs (some r), store) := by
  rintro ⟨sn, pgs, rg, ws⟩ store hsn
  cases hsn
  rfl

/-- Witness for C8 (amended): a no-`sn` message with text `"x"` over the
store `[(1, "a")]` renders `"ax"` and leaves the store unchanged. -/
theorem aggregateText_noSn_appends_once_witness :
    aggregateText (some (mkResult none none none "x")) [(1, "a")]
      = (renderEntries [(1, "a")] ++ extractTextFromWs (some (mkResult none none none "x")),
          [(1, "a")]) :=
  aggregateText_noSn_appends_once (mkResult none none none "x") [(1, "a")] rfl

/-- C10: a replaceRange result whose range is missing or not an array of
at least two numeric entries deletes nothing: `normalizeRange` yields
`undefined` for every such raw range value, and `aggregateText` on a `rpl`
result with no range degrades to a plain store/overwrite of its text at
its own sequence number, leaving every other entry unchanged. -/
theorem rpl_without_range_degrades :
    (∀ jsNum, normalizeRange jsNum none = none) ∧
    (∀ jsNum, normalizeRange jsNum (some .nul) = none) ∧
    (∀ jsNum b, normalizeRange jsNum (some (.bool b)) = none) ∧
    (∀ jsNum q, normalizeRange jsNum (some (.num q)) = none) ∧
    (∀ jsNum s, normalizeRange jsNum (some (.str s)) = none) ∧
    (∀ jsNum fields, normalizeRange jsNum (some (.obj fields)) = none) ∧
    (∀ jsNum xs, xs.length < 2 → normalizeRange jsNum (some (.arr xs)) = none) ∧
    (∀ jsNum v₀ v₁ rest, jsNum v₀ = none →
      normalizeRange jsNum (some (.arr (v₀ :: v₁ :: rest))) = none) ∧
    (∀ jsNum v₀ v₁ rest, jsNum v₁ = none →
      normalizeRange jsNum (some (.arr (v₀ :: v₁ :: rest))) = none) ∧
    (∀ (r : WpgsResult) (store : TextStore) (n : ℚ),
      r.sn = some n → r.pgs = some Pgs.rpl → r.rg = none →
      (aggregateText (some r) store).2
        = (if extractTextFromWs (some r) = "" then store
            else mapSet store n (extractTextFromWs (some r)))) := by
  refine ⟨fun _ => rfl, fun _ => rfl, fun _ _ => rfl, fun _ _ => rfl,
    fun _ _ => rfl, fun _ _ => rfl, ?_, ?_, ?_, ?_⟩
  · intro jsNum xs h
    match xs, h with
    | [], _ => rfl
    | [v], _ => rfl
    | v₀ :: v₁ :: rest, h => simp at h; omega
  · intro jsNum v₀ v₁ rest h
    simp [normalizeRange, h]
  · intro jsNum v₀ v₁ rest h
    simp only [normalizeRange, h]
    match jsNum v₀ with
    | none => rfl
    | some _ => rfl
  · rintro ⟨sn, pgs, rg, ws⟩ store n hsn hpgs hrg
    cases hsn
    cases hpgs
    cases hrg
    rfl

/-- Witness for C10: a `rpl` result carrying no range over a two-entry
store stores its text at its own key and deletes nothing. -/
theorem rpl_without_range_degrades_witness :
    normalizeRange jsNumNone (some (.arr [.num 2])) = none ∧
    (aggregateText (some (mkResult (some 2) (some .rpl) none "c"))
        [(1, "a"), (2, "b")]).2
      = (if extractTextFromWs (some (mkResult (some 2) (some .rpl) none "c")) = ""
          then [(1, "a"), (2, "b")]
          else mapSet [(1, "a"), (2, "b")] 2
            (extractTextFromWs (some (mkResult (some 2) (some .rpl) none "c")))) :=
  ⟨rpl_without_range_degrades.2.2.2.2.2.2.1 jsNumNone [.num 2] (by decide),
    rpl_without_range_degrades.2.2.2.2.2.2.2.2.2
      (mkResult (some 2) (some .rpl) none "c") [(1, "a"), (2, "b")] 2 rfl rfl rfl⟩

lemma bridgeStep_of_settled (dec : String → Option JsValue)
    (jsNum : JsValue → Option ℚ) (s : BridgeState) (e : BridgeEvent)
    (h : s.settled = true) :
    (bridgeStep dec jsNum s e).settlement = none ∧
    (bridgeStep dec jsNum s e).state.settled = true := by
  cases e with
  | timerFire => simp [bridgeStep, h]
  | wsError => simp [bridgeStep, bridgeAbort, h]
  | wsOpen sendOk => cases sendOk <;> simp [bridgeStep, bridgeAbort, h]
  | wsMessage payload =>
    cases payload with
    | none => simp [bridgeStep, bridgeAbort, h]
    | some p =>
      simp only [bridgeStep]
      by_cases hc : jsCodeIsZero (jsGet p "code") = true
      · rw [if_pos hc]
        cases hp : parseResult dec jsNum (jsDataResult p) <;>
          simp [hp, h, bridgeAbort]
      · rw [if_neg hc]
        simp [bridgeAbort, h]
  | wsClose code => simp [bridgeStep, h]

lemma bridgeStep_settle_once (dec : String → Option JsValue)
    (jsNum : JsValue → Option ℚ) (s : BridgeState) (e : BridgeEvent)
    (h : (bridgeStep dec jsNum s e).settlement.isSome = true) :
    s.settled = false ∧ (bridgeStep dec jsNum s e).state.settled = true ∧
    (bridgeStep dec jsNum s e).state.timerArmed = false := by
  by_cases hs : s.settled = true
  · rw [(bridgeStep_of_settled dec jsNum s e hs).1] at h
    simp at h
  · have hs' : s.settled = false := by simpa using hs
    refine ⟨hs', ?_⟩
    cases e with
    | timerFire => simp [bridgeStep, hs']
    | wsError => simp [bridgeStep, bridgeAbort, hs']
    | wsOpen sendOk =>
      cases sendOk <;> simp_all [bridgeStep, bridgeAbort, hs']
    | wsMessage payload =>
      cases payload with
      | none => simp [bridgeStep, bridgeAbort, hs']
      | some p =>
        simp only [bridgeStep] at h ⊢
        by_cases hc : jsCodeIsZero (jsGet p "code") = true
        · rw [if_pos hc] at h ⊢
          cases hp : parseResult dec jsNum (jsDataResult p) <;>
            by_cases h2 : jsStatusIsTwo p = true <;>
            simp_all [hs']
        · rw [if_neg hc] at h ⊢
          simp [bridgeAbort, hs']
    | wsClose code =>
      simp only [bridgeStep] at h ⊢
      rw [if_neg (by simp [hs'])] at h ⊢
      by_cases hcode : code = 1000 <;> simp_all

lemma bridgeRun_le (dec : String → Option JsValue)
    (jsNum : JsValue → Option ℚ) :
    ∀ (evs : List BridgeEvent) (s : BridgeState),
      bridgeRun dec jsNum s evs ≤ if s.settled then 0 else 1 := by
  intro evs
  induction evs with
  | nil => intro s; simp [bridgeRun]
  | cons e rest ih =>
    intro s
    simp only [bridgeRun]
    by_cases hs : s.settled = true
    · have h := bridgeStep_of_settled dec jsNum s e hs
      have hrec : bridgeRun dec jsNum (bridgeStep dec jsNum s e).state rest ≤ 0 := by
        have := ih (bridgeStep dec jsNum s e).state
        rw [h.2] at this
        simpa using this
      rw [h.1]
      simp only [hs, if_true]
      simpa using hrec
    · have hs' : s.settled = false := by simpa using hs
      have hgoal : (if (bridgeStep dec jsNum s e).settlement.isSome then 1 else 0)
          + bridgeRun dec jsNum (bridgeStep dec jsNum s e).state rest ≤ 1 := by
        by_cases ho : (bridgeStep dec jsNum s e).settlement.isSome = true
        · have h := bridgeStep_settle_once dec jsNum s e ho
          have hrec : bridgeRun dec jsNum (bridgeStep dec jsNum s e).state rest ≤ 0 := by
            have := ih (bridgeStep dec jsNum s e).state
            rw [h.2.1] at this
            simpa using this
          simp only [ho, if_true]
          omega
        · have ho' : (bridgeStep dec jsNum s e).settlement.isSome = false := by
            simpa using ho
          have hrec : bridgeRun dec jsNum (bridgeStep dec jsNum s e).state rest ≤ 1 := by
            have := ih (bridgeStep dec jsNum s e).state
            by_cases h2 : (bridgeStep dec jsNum s e).state.settled = true <;>
              simp [h2] at this <;> omega
          simp [ho']
          omega
      simpa [hs'] using hgoal

lemma probeStep_of_settled (s : ProbeState) (e : ProbeEvent)
    (h : s.settled = true) :
    (probeStep s e).settlement = none ∧ (probeStep s e).state.settled = true := by
  cases e with
  | timerFire => simp [probeStep, h]
  | wsError => simp [probeStep, h]
  | wsOpen sendOk => cases sendOk <;> simp [probeStep, h]
  | wsMessage payload =>
    cases payload with
    | none => simp [probeStep, h]
    | some p =>
      simp only [probeStep]
      cases hg : jsGet p "code" with
      | none => simp [h]
      | some v =>
        cases v <;> simp [h] <;> split_ifs <;> simp [h]
  | wsClose code =>
    simp only [probeStep]
    rw [if_pos h]
    simp [h]

lemma probeStep_settle_once (s : ProbeState) (e : ProbeEvent)
    (h : (probeStep s e).settlement.isSome = true) :
    s.settled = false ∧ (probeStep s e).state.settled = true ∧
    (probeStep s e).state.timerArmed = false := by
  by_cases hs : s.settled = true
  · rw [(probeStep_of_settled s e hs).1] at h
    simp at h
  · have hs' : s.settled = false := by simpa using hs
    refine ⟨hs', ?_⟩
    cases e with
    | timerFire => simp [probeStep, hs']
    | wsError => simp [probeStep, hs']
    | wsOpen sendOk => cases sendOk <;> simp_all [probeStep, hs']
    | wsMessage payload =>
      cases payload with
      | none => simp_all [probeStep]
      | some p =>
        simp only [probeStep] at h ⊢
        cases hg : jsGet p "code" with
        | none => simp_all
        | some v =>
          cases v <;> simp_all [hs'] <;> split_ifs <;> simp_all
    | wsClose code =>
      simp only [probeStep] at h ⊢
      rw [if_neg (by simp [hs'])] at h ⊢
      by_cases hcode : code = 1000 || code = 0 <;> simp_all

lemma probeRun_le :
    ∀ (evs : List ProbeEvent) (s : ProbeState),
      probeRun s evs ≤ if s.settled then 0 else 1 := by
  intro evs
  induction evs with
  | nil => intro s; simp [probeRun]
  | cons e rest ih =>
    intro s
    simp only [probeRun]
    by_cases hs : s.settled = true
    · have h := probeStep_of_settled s e hs
      have hrec : probeRun (probeStep s e).state rest ≤ 0 := by
        have := ih (probeStep s e).state
        rw [h.2] at this
        simpa using this
      rw [h.1]
      simp only [hs, if_true]
      simpa using hrec
    · have hs' : s.settled = false := by simpa using hs
      have hgoal : (if (probeStep s e).settlement.isSome then 1 else 0)
          + probeRun (probeStep s e).state rest ≤ 1 := by
        by_cases ho : (probeStep s e).settlement.isSome = true
        · have h := probeStep_settle_once s e ho
          have hrec : probeRun (probeStep s e).state rest ≤ 0 := by
            have := ih (probeStep s e).state
            rw [h.2.1] at this
            simpa using this
          simp only [ho, if_true]
          omega
        · have ho' : (probeStep s e).settlement.isSome = false := by simpa using ho
          have hrec : probeRun (probeStep s e).state rest ≤ 1 := by
            have := ih (probeStep s e).state
            by_cases h2 : (probeStep s e).state.settled = true <;>
              simp [h2] at this <;> omega
          simp [ho']
          omega
      simpa [hs'] using hgoal

/-- C2: for every session of the recognition bridge and of the
connectivity probe and every interleaving of timer, error, open, message
and close events, at most one settlement (resolve or reject) is emitted
along the whole trace; events after the first settlement never settle
again. -/
theorem session_settles_at_most_once :
    ∀ (dec : String → Option JsValue) (jsNum : JsValue → Option ℚ)
      (evs : List BridgeEvent) (pevs : List ProbeEvent),
      bridgeRun dec jsNum bridgeInit evs ≤ 1 ∧ probeRun probeInit pevs ≤ 1 := by
  intro dec jsNum evs pevs
  constructor
  · have := bridgeRun_le dec jsNum evs bridgeInit
    simpa [bridgeInit] using this
  · have := probeRun_le pevs probeInit
    simpa [probeInit] using this

/-- C6: the recognition bridge arms a 25 s session timer and a 10 s
handshake-only timeout, the connectivity probe a 12 s session timer; when
the timer fires on an unsettled session the transport is force-closed
(close code 4000) and the session rejects with a timeout error; and on
every settlement (resolve or reject) the timer is left cleared. -/
theorem session_timeout_discipline :
    bridgeSessionTimeoutMs = 25000 ∧ bridgeHandshakeTimeoutMs = 10000 ∧
    probeSessionTimeoutMs = 12000 ∧
    (∀ (dec : String → Option JsValue) (jsNum : JsValue → Option ℚ)
        (s : BridgeState), s.settled = false →
      bridgeStep dec jsNum s .timerFire
        = ⟨{ s with settled := true, timerArmed := false },
            some (.reject .timeout), [some 4000]⟩) ∧
    (∀ s : ProbeState, s.settled = false →
      probeStep s .timerFire
        = ⟨⟨true, false⟩, some (.reject .timeout), [some 4000]⟩) ∧
    (∀ (dec : String → Option JsValue) (jsNum : JsValue → Option ℚ)
        (s : BridgeState) (e : BridgeEvent),
      (bridgeStep dec jsNum s e).settlement.isSome = true →
      (bridgeStep dec jsNum s e).state.timerArmed = false) ∧
    (∀ (s : ProbeState) (e : ProbeEvent),
      (probeStep s e).settlement.isSome = true →
      (probeStep s e).state.timerArmed = false) := by
  refine ⟨rfl, rfl, rfl, ?_, ?_, ?_, ?_⟩
  · intro dec jsNum s hs
    simp [bridgeStep, hs]
  · intro s hs
    simp [probeStep, hs]
  · intro dec jsNum s e h
    exact (bridgeStep_settle_once dec jsNum s e h).2.2
  · intro s e h
    exact (probeStep_settle_once s e h).2.2

/-- Witness for C6: the timeout firing on a fresh bridge session and a
fresh probe session force-closes with code 4000 and rejects; a non-normal
close settles and leaves the timer cleared. -/
theorem session_timeout_discipline_witness :
    bridgeStep decNone jsNumNone bridgeInit .timerFire
      = ⟨⟨true, false, [], ""⟩, some (.reject .timeout), [some 4000]⟩ ∧
    probeStep probeInit .timerFire
      = ⟨⟨true, false⟩, some (.reject .timeout), [some 4000]⟩ ∧
    (bridgeStep decNone jsNumNone bridgeInit (.wsClose 5)).state.timerArmed = false ∧
    (probeStep probeInit (.wsClose 5)).state.timerArmed = false :=
  ⟨session_timeout_discipline.2.2.2.1 decNone jsNumNone bridgeInit rfl,
    session_timeout_discipline.2.2.2.2.1 probeInit rfl,
    session_timeout_discipline.2.2.2.2.2.1 decNone jsNumNone bridgeInit
      (.wsClose 5) (by decide),
    session_timeout_discipline.2.2.2.2.2.2 probeInit (.wsClose 5) (by decide)⟩

/-- Counterexample to C9 as stated: a `code == 0` message whose `result`
field cannot be normalized (`parseResult` yields `null`) but which carries
`data.status == 2` does settle the session — it resolves with the pending
text — so the clause "the session is neither settled nor aborted" does
not hold for every such message. -/
theorem unparseable_result_settles_on_status_two :
    parseResult decNone jsNumNone
      (jsDataResult (.obj [("data", .obj [("status", .num 2), ("result", .num 5)])]))
      = none ∧
    (bridgeStep decNone jsNumNone bridgeInit
        (.wsMessage (some (.obj [("data", .obj [("status", .num 2), ("result", .num 5)])])))).settlement
      = some (.resolve "") :=
  ⟨by decide, by decide⟩

/-- C9 (amended): an inbound `code == 0` message whose `result` field
cannot be normalized is tolerated: `parseResult` returns `null` instead of
raising (for a non-string non-object result, a string that fails to
decode, and an object carrying none of the recognized fields), and —
unless the message also carries `data.status == 2`, in which case the
session resolves as it would for any final message — the handler leaves
the accumulator store, the pending final text and the settled flag
unchanged and emits no settlement and no close. -/
theorem unparseable_result_tolerated :
    (∀ (dec : String → Option JsValue) (jsNum : JsValue → Option ℚ) (q : ℚ),
      parseResult dec jsNum (some (.num q)) = none) ∧
    (∀ (dec : String → Option JsValue) (jsNum : JsValue → Option ℚ) (b : Bool),
      parseResult dec jsNum (some (.bool b)) = none) ∧
    (∀ (dec : String → Option JsValue) (jsNum : JsValue → Option ℚ),
      parseResult dec jsNum (some .nul) = none) ∧
    (∀ (dec : String → Option JsValue) (jsNum : JsValue → Option ℚ) (s : String),
      dec s = none → parseResult dec jsNum (some (.str s)) = none) ∧
    (∀ (dec : String → Option JsValue) (jsNum : JsValue → Option ℚ)
        (fields : List (String × JsValue)),
      jsLookupField fields "sn" = none → jsLookupField fields "pgs" = none →
      jsLookupField fields "rg" = none → jsLookupField fields "ws" = none →
      jsLookupField fields "cn" = none → jsLookupField fields "text" = none →
      parseResult dec jsNum (some (.obj fields)) = none) ∧
    (∀ (dec : String → Option JsValue) (jsNum : JsValue → Option ℚ)
        (s : BridgeState) (payload : JsValue),
      jsCodeIsZero (jsGet payload "code") = true →
      parseResult dec jsNum (jsDataResult payload) = none →
      jsStatusIsTwo payload = false →
      bridgeStep dec jsNum s (.wsMessage (some payload)) = ⟨s, none, []⟩) := by
  refine ⟨?_, ?_, ?_, ?_, ?_, ?_⟩
  · intro dec jsNum q
    simp only [parseResult, jsSize]
    rw [show (1 : ℕ) = 0 + 1 from rfl]
    simp only [parseResultGo]
    split <;> rfl
  · intro dec jsNum b
    simp only [parseResult, jsSize]
    rw [show (1 : ℕ) = 0 + 1 from rfl]
    simp only [parseResultGo]
    split <;> rfl
  · intro dec jsNum
    rfl
  · intro dec jsNum s h
    simp only [parseResult, jsSize]
    rw [show (1 : ℕ) = 0 + 1 from rfl]
    simp only [parseResultGo]
    split
    · rfl
    · simp [h]
  · intro dec jsNum fields h1 h2 h3 h4 h5 h6
    simp [parseResult, jsSize, parseResultGo, jsGet, jsFalsy, h1, h2, h3, h4, h5,
      h6, normalizeRange, normalizeWsSegments]
  · intro dec jsNum s payload hc hp h2
    simp only [bridgeStep, if_pos hc, hp, h2]
    simp

/-- Witness for C9 (amended): a failing decoder on the string result
`"!!!"`, and a `code`-less, non-final message carrying that result, leave
a fresh session completely unchanged. -/
theorem unparseable_result_tolerated_witness :
    parseResult decNone jsNumNone (some (.str "!!!")) = none ∧
    bridgeStep decNone jsNumNone bridgeInit
        (.wsMessage (some (.obj [("data", .obj [("result", .str "!!!")])])))
      = ⟨bridgeInit, none, []⟩ :=
  ⟨unparseable_result_tolerated.2.2.2.1 decNone jsNumNone "!!!" rfl,
    unparseable_result_tolerated.2.2.2.2.2 decNone jsNumNone bridgeInit
      (.obj [("data", .obj [("result", .str "!!!")])]) (by decide) (by decide)
      (by decide)⟩

lemma getD_map_range (n i : ℕ) (f : ℕ → ℚ) (hi : i < n) :
    (((List.range n).map f).getD i 0) = f i := by
  rw [List.getD_eq_getElem?_getD, List.getElem?_map, List.getElem?_range hi]
  rfl

lemma jsRound_natCast (L : ℕ) : jsRound (L : ℚ) = (L : ℤ) := by
  unfold jsRound
  rw [add_comm, Int.floor_add_nat]
  norm_num

/-- C3: for positive rates, the resampler's output length equals
`round(L / r)` with `r = inputRate / targetRate`; equal rates yield the
input unchanged; and every output sample is the linear interpolation of
the two neighbouring source samples at position `i * r`, the upper
neighbour clamped at the array end. -/
theorem resampleBuffer_spec :
    ∀ (data : List ℚ) (inputSampleRate targetSampleRate : ℚ),
      0 < inputSampleRate → 0 < targetSampleRate →
      ((resampleBuffer data inputSampleRate targetSampleRate).length
          = (jsRound ((data.length : ℚ) / (inputSampleRate / targetSampleRate))).toNat) ∧
      (inputSampleRate = targetSampleRate →
        resampleBuffer data inputSampleRate targetSampleRate = data) ∧
      (∀ i : ℕ, i < (resampleBuffer data inputSampleRate targetSampleRate).length →
        (resampleBuffer data inputSampleRate targetSampleRate).getD i 0
          = data.getD (⌊(i : ℚ) * (inputSampleRate / targetSampleRate)⌋).toNat 0
            + (data.getD (min (⌊(i : ℚ) * (inputSampleRate / targetSampleRate)⌋ + 1)
                  ((data.length : ℤ) - 1)).toNat 0
                - data.getD (⌊(i : ℚ) * (inputSampleRate / targetSampleRate)⌋).toNat 0)
              * ((i : ℚ) * (inputSampleRate / targetSampleRate)
                  - ⌊(i : ℚ) * (inputSampleRate / targetSampleRate)⌋)) := by
  intro data ir tr hir htr
  refine ⟨?_, ?_, ?_⟩
  · by_cases h : ir = tr
    · subst h
      rw [div_self (ne_of_gt hir), div_one]
      simp [resampleBuffer, jsRound_natCast]
    · simp [resampleBuffer, h]
  · intro h
    simp [resampleBuffer, h]
  · intro i hi
    by_cases h : ir = tr
    · subst h
      have hone : ir / ir = 1 := div_self (ne_of_gt hir)
      rw [hone, mul_one]
      simp only [resampleBuffer, if_pos rfl] at hi ⊢
      rw [Int.floor_natCast]
      simp
    · simp only [resampleBuffer, if_neg h] at hi ⊢
      rw [List.length_map, List.length_range] at hi
      rw [getD_map_range _ _ _ hi]

/-- Witness for C3: the length law at a concrete downsampling, and the
identity and interpolation laws at equal rates. -/
theorem resampleBuffer_spec_witness :
    ((resampleBuffer [1, 2, 3, 4] 2 1).length
        = (jsRound ((([1, 2, 3, 4] : List ℚ).length : ℚ) / (2 / 1))).toNat) ∧
    resampleBuffer [5] 1 1 = [5] ∧
    ((resampleBuffer [5] 1 1).getD 0 0
      = ([5] : List ℚ).getD (⌊((0 : ℕ) : ℚ) * ((1 : ℚ) / 1)⌋).toNat 0
        + (([5] : List ℚ).getD (min (⌊((0 : ℕ) : ℚ) * ((1 : ℚ) / 1)⌋ + 1)
              ((([5] : List ℚ).length : ℤ) - 1)).toNat 0
            - ([5] : List ℚ).getD (⌊((0 : ℕ) : ℚ) * ((1 : ℚ) / 1)⌋).toNat 0)
          * (((0 : ℕ) : ℚ) * ((1 : ℚ) / 1) - ⌊((0 : ℕ) : ℚ) * ((1 : ℚ) / 1)⌋)) :=
  ⟨(resampleBuffer_spec [1, 2, 3, 4] 2 1 (by decide) (by decide)).1,
    (resampleBuffer_spec [5] 1 1 (by decide) (by decide)).2.1 rfl,
    (resampleBuffer_spec [5] 1 1 (by decide) (by decide)).2.2 0 (by decide)⟩

/-- Counterexample to C4 as stated: the sample `2/65535` lies in `[-1, 1]`,
encodes (after clamping and scaling by 32767) to the stored value `0`, and
decodes back to `0`; the round-trip error `2/65535` exceeds the claimed
bound `1/32768`. -/
theorem pcm_roundtrip_exceeds_claimed_bound :
    (-1 : ℚ) ≤ 2 / 65535 ∧ (2 / 65535 : ℚ) ≤ 1 ∧
    1 / 32768 < |decodeSample (encodeSample (2 / 65535)) - 2 / 65535| := by
  refine ⟨by norm_num, by norm_num, ?_⟩
  have hc : pcmClamp ((2 : ℚ) / 65535) = 2 / 65535 := by
    unfold pcmClamp
    rw [min_eq_right (by norm_num), max_eq_right (by norm_num)]
  have hs : pcmScale ((2 : ℚ) / 65535) = 65534 / 65535 := by
    unfold pcmScale
    rw [if_neg (by norm_num)]
    norm_num
  have ht : ratTrunc ((65534 : ℚ) / 65535) = 0 := by
    unfold ratTrunc
    rw [if_neg (by norm_num)]
    rw [Int.floor_eq_zero_iff]
    constructor <;> norm_num
  have henc : encodeSample ((2 : ℚ) / 65535) = 0 := by
    unfold encodeSample toInt16
    rw [hc, hs, ht]
    decide
  rw [henc]
  have hd : decodeSample 0 = 0 := by
    unfold decodeSample
    norm_num
  rw [hd]
  rw [abs_sub_comm, sub_zero, abs_of_pos (by norm_num)]
  norm_num

lemma floatTo16BitPCM_length (data : List ℚ) :
    (floatTo16BitPCM data).length = 2 * data.length := by
  induction data with
  | nil => rfl
  | cons x xs ih =>
    have h : floatTo16BitPCM (x :: xs)
        = int16LeBytes (encodeSample x) ++ floatTo16BitPCM xs := rfl
    rw [h, List.length_append, ih]
    simp only [int16LeBytes, List.length_cons, List.length_nil]
    omega

/-- C4 (amended): quantization clamps each sample to `[-1, 1]`, scales by
32768 when negative and 32767 otherwise, truncates to a signed 16-bit
value and emits two little-endian bytes per sample; decoding the stored
value by the same sign-dependent scale recovers the original sample within
`1/32767` (and the bound `1/32768` does hold for negative samples). -/
theorem pcm_quantize_spec :
    (∀ data : List ℚ, (floatTo16BitPCM data).length = 2 * data.length) ∧
    (∀ data : List ℚ, floatTo16BitPCM data
        = data.flatMap fun s => int16LeBytes (toInt16 (pcmScale (pcmClamp s)))) ∧
    (∀ s : ℚ, -1 ≤ s → s ≤ 1 →
      |decodeSample (encodeSample s) - s| < 1 / 32767) ∧
    (∀ s : ℚ, -1 ≤ s → s < 0 →
      |decodeSample (encodeSample s) - s| < 1 / 32768) := by
  have key_neg : ∀ s : ℚ, -1 ≤ s → s < 0 →
      |decodeSample (encodeSample s) - s| < 1 / 32768 := by
    intro s h1 hneg
    have hclamp : pcmClamp s = s := by
      unfold pcmClamp
      rw [min_eq_right (by linarith), max_eq_right h1]
    unfold encodeSample
    rw [hclamp]
    have hv : pcmScale s = s * 32768 := by
      unfold pcmScale
      rw [if_pos hneg]
    rw [hv]
    have hv0 : s * 32768 < 0 := mul_neg_of_neg_of_pos hneg (by norm_num)
    have hvlo : (-32768 : ℚ) ≤ s * 32768 := by nlinarith
    have htr : ratTrunc (s * 32768) = ⌈s * 32768⌉ := by
      unfold ratTrunc
      rw [if_pos hv0]
    have hklo : (-32768 : ℤ) ≤ ⌈s * 32768⌉ := by
      have h := Int.ceil_le_ceil (α := ℚ) (show ((-32768 : ℤ) : ℚ) ≤ s * 32768 by
        push_cast; linarith)
      simpa using h
    have hkhi : ⌈s * 32768⌉ ≤ 0 := Int.ceil_le.mpr (by push_cast; linarith)
    have h16 : toInt16 (s * 32768) = ⌈s * 32768⌉ := by
      unfold toInt16
      rw [htr]
      dsimp only
      split <;> omega
    rw [h16]
    have hdec : decodeSample ⌈s * 32768⌉ = (⌈s * 32768⌉ : ℚ) / 32768 := by
      unfold decodeSample
      by_cases hk : ⌈s * 32768⌉ < 0
      · rw [if_pos hk]
      · have hk0 : ⌈s * 32768⌉ = 0 := le_antisymm hkhi (not_lt.mp hk)
        rw [if_neg hk, hk0]
        norm_num
    rw [hdec]
    have hsub : (⌈s * 32768⌉ : ℚ) / 32768 - s = ((⌈s * 32768⌉ : ℚ) - s * 32768) / 32768 := by
      ring
    rw [hsub, abs_div, abs_of_pos (show (0 : ℚ) < 32768 by norm_num)]
    have hnum : |(⌈s * 32768⌉ : ℚ) - s * 32768| < 1 := by
      rw [abs_of_nonneg (by linarith [Int.le_ceil (s * 32768)])]
      linarith [Int.ceil_lt_add_one (s * 32768)]
    gcongr
  have key_nonneg : ∀ s : ℚ, 0 ≤ s → s ≤ 1 →
      |decodeSample (encodeSample s) - s| < 1 / 32767 := by
    intro s h0 h2
    have hclamp : pcmClamp s = s := by
      unfold pcmClamp
      rw [min_eq_right h2, max_eq_right (by linarith)]
    unfold encodeSample
    rw [hclamp]
    have hv : pcmScale s = s * 32767 := by
      unfold pcmScale
      rw [if_neg (not_lt.mpr h0)]
    rw [hv]
    have hv0 : (0 : ℚ) ≤ s * 32767 := mul_nonneg h0 (by norm_num)
    have hvhi : s * 32767 ≤ 32767 := by nlinarith
    have htr : ratTrunc (s * 32767) = ⌊s * 32767⌋ := by
      unfold ratTrunc
      rw [if_neg (not_lt.mpr hv0)]
    have hklo : (0 : ℤ) ≤ ⌊s * 32767⌋ := Int.floor_nonneg.mpr hv0
    have hkhi : ⌊s * 32767⌋ ≤ 32767 := by
      have h := Int.floor_le_floor (α := ℚ) (show s * 32767 ≤ ((32767 : ℤ) : ℚ) by
        push_cast; linarith)
      simpa using h
    have h16 : toInt16 (s * 32767) = ⌊s * 32767⌋ := by
      unfold toInt16
      rw [htr]
      dsimp only
      split <;> omega
    rw [h16]
    have hdec : decodeSample ⌊s * 32767⌋ = (⌊s * 32767⌋ : ℚ) / 32767 := by
      unfold decodeSample
      rw [if_neg (not_lt.mpr hklo)]
    rw [hdec]
    have hsub : (⌊s * 32767⌋ : ℚ) / 32767 - s
        = ((⌊s * 32767⌋ : ℚ) - s * 32767) / 32767 := by
      ring
    rw [hsub, abs_div, abs_of_pos (show (0 : ℚ) < 32767 by norm_num)]
    have hnum : |(⌊s * 32767⌋ : ℚ) - s * 32767| < 1 := by
      rw [abs_sub_comm, abs_of_nonneg (by linarith [Int.floor_le (s * 32767)])]
      linarith [Int.lt_floor_add_one (s * 32767)]
    gcongr
  refine ⟨floatTo16BitPCM_length, fun _ => rfl, ?_, key_neg⟩
  intro s h1 h2
  by_cases hneg : s < 0
  · calc |decodeSample (encodeSample s) - s| < 1 / 32768 := key_neg s h1 hneg
      _ < 1 / 32767 := by norm_num
  · exact key_nonneg s (not_lt.mp hneg) h2

/-- Witness for C4 (amended): the round trip at the sample `1` errs by
less than `1/32767`, and at `-1` by less than `1/32768`. -/
theorem pcm_quantize_spec_witness :
    |decodeSample (encodeSample 1) - 1| < 1 / 32767 ∧
    |decodeSample (encodeSample (-1)) - (-1)| < 1 / 32768 :=
  ⟨pcm_quantize_spec.2.2.1 1 (by norm_num) (by norm_num),
    pcm_quantize_spec.2.2.2 (-1) (by norm_num) (by norm_num)⟩

/-- C5: the signed handshake is a pure deterministic function — identical
inputs yield identical authorization headers — and the recognition
bridge's `buildAuthorization` (called with method `GET`) and the probe's
inline computation produce equal canonical strings, signatures and
authorization headers for every identical input and every choice of the
shared HMAC-SHA256 and base64 primitives. -/
theorem buildAuthorization_shared_deterministic :
    ∀ (hmacSha256Base64 : String → String → String)
      (base64Encode : String → String)
      (apiKey apiSecret path date host : String),
      probeSignatureOrigin path date host
        = bridgeSignatureOrigin "GET" path date host ∧
      hmacSha256Base64 apiSecret (probeSignatureOrigin path date host)
        = hmacSha256Base64 apiSecret (bridgeSignatureOrigin "GET" path date host) ∧
      testXfyunAuthorization hmacSha256Base64 base64Encode apiKey apiSecret path date host
        = buildAuthorization hmacSha256Base64 base64Encode apiKey apiSecret "GET" path date host ∧
      (∀ apiKey' apiSecret' path' date' host',
        apiKey = apiKey' → apiSecret = apiSecret' → path = path' →
        date = date' → host = host' →
        buildAuthorization hmacSha256Base64 base64Encode apiKey apiSecret "GET" path date host
          = buildAuthorization hmacSha256Base64 base64Encode apiKey' apiSecret' "GET"
              path' date' host') := by
  intro hmac b64 apiKey apiSecret path date host
  have hup : jsToUpperCase "GET" = "GET" := by decide
  have horigin : probeSignatureOrigin path date host
      = bridgeSignatureOrigin "GET" path date host := by
    unfold probeSignatureOrigin bridgeSignatureOrigin
    rw [hup]
  refine ⟨horigin, by rw [horigin], ?_, ?_⟩
  · unfold testXfyunAuthorization buildAuthorization
    rw [horigin]
  · intro apiKey' apiSecret' path' date' host' h1 h2 h3 h4 h5
    rw [h1, h2, h3, h4, h5]

/-- Witness for C5: equality of the two implementations and determinism at
the fixed XFYun host and path with concrete primitives. -/
theorem buildAuthorization_shared_deterministic_witness :
    testXfyunAuthorization (fun k m => k ++ m) (fun s => s) "key" "secret"
        "/v2/iat" "Mon, 01 Jan 2024 00:00:00 GMT" "iat-api.xfyun.cn"
      = buildAuthorization (fun k m => k ++ m) (fun s => s) "key" "secret" "GET"
          "/v2/iat" "Mon, 01 Jan 2024 00:00:00 GMT" "iat-api.xfyun.cn" ∧
    buildAuthorization (fun k m => k ++ m) (fun s => s) "key" "secret" "GET"
        "/v2/iat" "Mon, 01 Jan 2024 00:00:00 GMT" "iat-api.xfyun.cn"
      = buildAuthorization (fun k m => k ++ m) (fun s => s) "key" "secret" "GET"
          "/v2/iat" "Mon, 01 Jan 2024 00:00:00 GMT" "iat-api.xfyun.cn" :=
  ⟨(buildAuthorization_shared_deterministic (fun k m => k ++ m) (fun s => s)
      "key" "secret" "/v2/iat" "Mon, 01 Jan 2024 00:00:00 GMT"
      "iat-api.xfyun.cn").2.2.1,
    (buildAuthorization_shared_deterministic (fun k m => k ++ m) (fun s => s)
      "key" "secret" "/v2/iat" "Mon, 01 Jan 2024 00:00:00 GMT"
      "iat-api.xfyun.cn").2.2.2 "key" "secret" "/v2/iat"
      "Mon, 01 Jan 2024 00:00:00 GMT" "iat-api.xfyun.cn" rfl rfl rfl rfl rfl⟩
